import Mathlib

/- Verification of the checkpoint-discovery and deployment core of the
   KServeDeployer widget (src/kserve_deployer/widget.py).  Python strings are
   embedded as lists of characters; Python None / falsy values are embedded as
   Option (none covers both a missing value and an empty string where the code
   tests truthiness).  Each definition is a direct translation of the
   corresponding Python function. -/

namespace KServeDeployer

/-- Python strings are modelled as lists of characters. -/
abbrev Str := List Char

/-! ## Path mapping (widget.py, _map_checkpoint_path)

The Python code calls training_path.replace(training_pfx, deployment_pfx, 1),
which replaces the first occurrence of the pattern anywhere in the string.
pyReplaceOnce embeds that exact semantics. -/

/-- Embedding of Python str.replace(old, new, 1): replace the first
occurrence of old in the string by new; if old does not occur, the string is
returned unchanged.  An empty old matches at position 0. -/
def pyReplaceOnce (old new : Str) : Str → Str
  | [] => if old.isPrefixOf ([] : Str) then new else []
  | c :: rest =>
    if old.isPrefixOf (c :: rest) then new ++ (c :: rest).drop old.length
    else c :: pyReplaceOnce old new rest

/-- Embedding of _map_checkpoint_path: walk the user path mapping in table
order; on the first entry whose training path is a string-prefix of the
candidate, replace it once; with no matching entry the path is returned
unchanged. -/
def mapCheckpointPath (pathMapping : List (Str × Str)) (trainingPath : Str) : Str :=
  match pathMapping with
  | [] => trainingPath
  | (pfx, dep) :: rest =>
    if pfx.isPrefixOf trainingPath then pyReplaceOnce pfx dep trainingPath
    else mapCheckpointPath rest trainingPath

/-! ## Relative path extraction (widget.py, _extract_relative_path_for_pvc) -/

/-- Embedding of the two lines that remove a single leading slash from the
remainder after the mount path has been stripped. -/
def stripOneLeadingSlash : Str → Str
  | '/' :: rest => rest
  | s => s

/-- Embedding of _extract_relative_path_for_pvc, with the resolved mount path
passed in as an Option (none models both a missing job or API client and a
failed mount-path lookup; an empty mount string is falsy in the Python code
and is likewise treated as unresolved). -/
def extractRelativePathForPvc (pvcMountPath : Option Str) (checkpointPath : Str) :
    Option Str :=
  match pvcMountPath with
  | none => none
  | some m =>
    if m = [] then none
    else if m.isPrefixOf checkpointPath then
      let rel := stripOneLeadingSlash (checkpointPath.drop m.length)
      if rel = [] then none else some rel
    else none

/-! ## Checkpoint registry and mapped listing (widget.py, find_checkpoints)

The Python registry detected_checkpoints is a set of original paths; it is
embedded as a duplicate-free list.  Python sorted() returns the unique
lexicographically sorted permutation of its input, embedded through
List.insertionSort over the code-point order on strings. -/

/-- Lexicographic string comparison by code point, the order used by Python
sorted() on strings. -/
def strLe : Str → Str → Bool
  | [], _ => true
  | _ :: _, [] => false
  | a :: as, b :: bs => if a < b then true else if a = b then strLe as bs else false

/-- The comparison as a relation, for use with List.insertionSort. -/
def strLeRel (a b : Str) : Prop := strLe a b = true

instance : DecidableRel strLeRel := fun a b =>
  inferInstanceAs (Decidable (strLe a b = true))

/-- Embedding of the registry insertion performed by the log scanner and the
log monitor: the path is added only if not already present (a Python set),
and whether it was newly added is reported. -/
def recordCheckpoint (reg : List Str) (p : Str) : Bool × List Str :=
  if p ∈ reg then (false, reg) else (true, reg ++ [p])

/-- Embedding of find_checkpoints: with an empty registry the result is empty;
otherwise every recorded original path is mapped through _map_checkpoint_path
and the resulting list (one entry per original, duplicates kept) is sorted. -/
def findCheckpoints (pathMapping : List (Str × Str)) (reg : List Str) : List Str :=
  if reg = [] then []
  else List.insertionSort strLeRel (reg.map (mapCheckpointPath pathMapping))

/-! ## Checkpoint directory classification (widget.py, _extract_checkpoint_directory) -/

/-- Embedding of Python str.rstrip applied with the slash character. -/
def dropTrailingSlashes (s : Str) : Str :=
  (s.reverse.dropWhile (fun c => c == '/')).reverse

/-- Embedding of os.path.dirname for POSIX paths: take the prefix up to and
including the last slash, then strip trailing slashes unless the prefix
consists only of slashes; with no slash the result is empty. -/
def pyDirname (p : Str) : Str :=
  let k := (p.reverse.takeWhile (fun c => c != '/')).length
  let head := if '/' ∈ p then p.take (p.length - k) else []
  if head.any (fun c => c != '/') then dropTrailingSlashes head else head

/-- The indices of the file patterns in the checkpoint_patterns list. -/
def filePatternIndices : List Nat := [6, 7, 8, 9]

/-- ASCII letters, as matched by the character class of the extension
heuristic. -/
def isAsciiLetter (c : Char) : Bool :=
  (65 ≤ c.toNat && c.toNat ≤ 90) || (97 ≤ c.toNat && c.toNat ≤ 122)

/-- The path ends in a dot followed by exactly k ASCII letters. -/
def extAt (p : Str) (k : Nat) : Bool :=
  decide (k + 1 ≤ p.length) && (p.drop (p.length - k)).all isAsciiLetter
    && ((p.take (p.length - k)).getLast? == some '.')

/-- Embedding of the regex search for a dot followed by 2 to 4 ASCII letters
anchored at the end of the string: such a match exists exactly when the last
3, 4 or 5 characters have that shape. -/
def endsWithShortExt (p : Str) : Bool := extAt p 2 || extAt p 3 || extAt p 4

/-- Embedding of _extract_checkpoint_directory.  For a file-pattern index the
containing directory is returned when the matched path is absolute and its
directory is neither empty nor the root; otherwise the path itself is
returned when absolute and not ending in a 2-4 letter extension. -/
def extractCheckpointDirectory (matchedPath : Str) (patternIndex : Nat) : Option Str :=
  if patternIndex ∈ filePatternIndices then
    if (['/'] : Str).isPrefixOf matchedPath then
      let directory := pyDirname matchedPath
      if directory ≠ [] ∧ directory ≠ ['/'] then some directory else none
    else none
  else
    if matchedPath ≠ [] ∧ (['/'] : Str).isPrefixOf matchedPath then
      if endsWithShortExt matchedPath then none else some matchedPath
    else none

/-! ## Volume-mount resolution (widget.py, _get_pytorchjob_pvc_name and
_get_pvc_mount_path_from_job)

The subset of the PyTorchJob resource the two functions consume is embedded as
explicit structures.  Option none models a missing key and also a falsy value
(empty string, empty dict), which the Python code treats alike. -/

/-- The persistentVolumeClaim entry of a volume. -/
structure PvcRef where
  claimName : Option Str
deriving DecidableEq

/-- A pod-template volume: its name and its optional PVC reference. -/
structure Volume where
  name : Option Str
  persistentVolumeClaim : Option PvcRef
deriving DecidableEq

/-- A container volume mount: the referenced volume name and the mount path. -/
structure VolumeMount where
  name : Option Str
  mountPath : Option Str
deriving DecidableEq

/-- A container, reduced to its volume mounts. -/
structure Container where
  volumeMounts : List VolumeMount
deriving DecidableEq

/-- A replica-spec pod template, reduced to its volumes and containers. -/
structure PodSpec where
  volumes : List Volume
  containers : List Container
deriving DecidableEq

/-- A PyTorchJob, reduced to the pod templates of its two replica-spec
families, in the order the Python code iterates them. -/
structure PyTorchJob where
  pytorchReplicaSpecs : List PodSpec
  replicaSpecs : List PodSpec
deriving DecidableEq

/-- First defined value in a list of optional values, mirroring a Python scan
that returns on the first hit and keeps going otherwise. -/
def firstSome {α : Type} : List (Option α) → Option α
  | [] => none
  | o :: rest =>
    match o with
    | some a => some a
    | none => firstSome rest

/-- The pod templates in iteration order: pytorchReplicaSpecs first, then
replicaSpecs. -/
def jobTemplates (job : PyTorchJob) : List PodSpec :=
  job.pytorchReplicaSpecs ++ job.replicaSpecs

/-- Inner loop of _get_pytorchjob_pvc_name: the claim name of the first
volume whose persistentVolumeClaim entry and claimName are both truthy. -/
def firstPvcClaimInVolumes : List Volume → Option Str
  | [] => none
  | v :: rest =>
    match v.persistentVolumeClaim with
    | some pvc =>
      match pvc.claimName with
      | some c => some c
      | none => firstPvcClaimInVolumes rest
    | none => firstPvcClaimInVolumes rest

/-- Embedding of _get_pytorchjob_pvc_name: scan every template in order and
return the first PVC claim name found among its volumes. -/
def getPytorchjobPvcName (job : PyTorchJob) : Option Str :=
  firstSome ((jobTemplates job).map (fun ps => firstPvcClaimInVolumes ps.volumes))

/-- The pvc_volume_mapping built per template: names of the volumes that
carry a truthy name and a truthy PVC claim name. -/
def pvcVolumeNames (vols : List Volume) : List Str :=
  vols.filterMap (fun v =>
    match v.name, v.persistentVolumeClaim with
    | some n, some pvc =>
      match pvc.claimName with
      | some _ => some n
      | none => none
    | _, _ => none)

/-- The per-mount test of _get_pvc_mount_path_from_job: a mount qualifies if
its volume name is in the template pvc_volume_mapping and its mount path is
truthy. -/
def pvcMountOfVolumeMount (names : List Str) (vm : VolumeMount) : Option Str :=
  match vm.name, vm.mountPath with
  | some n, some mp => if n ∈ names then some mp else none
  | _, _ => none

/-- Per-template scan of _get_pvc_mount_path_from_job: first qualifying mount
across the containers of the template. -/
def firstPvcMountInTemplate (ps : PodSpec) : Option Str :=
  firstSome (ps.containers.map (fun c =>
    firstSome (c.volumeMounts.map (pvcMountOfVolumeMount (pvcVolumeNames ps.volumes)))))

/-- Embedding of _get_pvc_mount_path_from_job: scan every template in order
and return the first qualifying mount path. -/
def getPvcMountPathFromJob (job : PyTorchJob) : Option Str :=
  firstSome ((jobTemplates job).map firstPvcMountInTemplate)

/-- A job whose first PVC-backed volume is mounted by no container while a
second PVC-backed volume is mounted. -/
def exampleJobC3 : PyTorchJob :=
  { pytorchReplicaSpecs := [
      { volumes := [
          { name := some (("vol-a").toList),
            persistentVolumeClaim := some { claimName := some (("pvc-a").toList) } },
          { name := some (("vol-b").toList),
            persistentVolumeClaim := some { claimName := some (("pvc-b").toList) } } ],
        containers := [
          { volumeMounts := [
              { name := some (("vol-b").toList),
                mountPath := some (("/mnt/b").toList) } ] } ] } ],
    replicaSpecs := [] }

/-- All PVC claim names of a job, template by template, in scan order. -/
def allPvcClaims (job : PyTorchJob) : List Str :=
  (jobTemplates job).flatMap (fun ps =>
    ps.volumes.filterMap (fun v =>
      match v.persistentVolumeClaim with
      | some pvc => pvc.claimName
      | none => none))

/-- All qualifying PVC mount paths of a job, template by template, container
by container, in scan order. -/
def allPvcMounts (job : PyTorchJob) : List Str :=
  (jobTemplates job).flatMap (fun ps =>
    ps.containers.flatMap (fun c =>
      c.volumeMounts.filterMap (pvcMountOfVolumeMount (pvcVolumeNames ps.volumes))))

/-! ## Deployment dataflow (widget.py, _create_inference_service)

The checkpoint path the deployment handler consumes is the value selected in
the checkpoints dropdown, whose options are the output of find_checkpoints,
that is, the already mapped paths.  The handler resolves the PVC name and the
mount path from the job, extracts the relative path from the selected mapped
path, and only then submits the create request with the composed storage URI;
any resolution failure returns before the request is built. -/

/-- Embedding of the storage-URI composition and submission guard of
_create_inference_service: some uri means a create request is submitted with
that storageUri, none means the handler returned without submitting. -/
def createInferenceService (pvcName : Option Str) (pvcMountPath : Option Str)
    (checkpointPath : Str) : Option Str :=
  match pvcName with
  | none => none
  | some pvc =>
    match extractRelativePathForPvc pvcMountPath checkpointPath with
    | none => none
    | some rel => some (("pvc://").toList ++ pvc ++ ('/' :: rel))

/-! ## Service watcher (widget.py, _watch_service_worker)

The polled status is reduced, exactly as the Python code does, to a snapshot
of the Ready condition status, reason and message, the url, and the condition
count.  The worker keeps last_ready_status and last_full_status, both
initially None, and updates both only when a change is detected. -/

/-- The current_full_status dictionary built each poll. -/
structure StatusSnapshot where
  readyStatus : Str
  readyReason : Str
  readyMessage : Str
  url : Str
  conditionsCount : Nat
deriving DecidableEq

/-- The string constant the Ready condition is compared against. -/
def trueStr : Str := ("True").toList

/-- The last-seen values carried across loop iterations. -/
structure WatchState where
  lastReadyStatus : Option Str
  lastFullStatus : Option StatusSnapshot
deriving DecidableEq

/-- One successful poll iteration of _watch_service_worker: the pair of
emitted flags (change notification, became-ready celebration) and the next
state.  In Python, None compared to a dict or string is unequal, which the
Option inequality mirrors. -/
def watchStep (st : WatchState) (cur : StatusSnapshot) : (Bool × Bool) × WatchState :=
  if st.lastFullStatus ≠ some cur ∨ st.lastReadyStatus ≠ some cur.readyStatus then
    ((true,
      if cur.readyStatus = trueStr ∧ st.lastReadyStatus ≠ some trueStr then true else false),
     { lastReadyStatus := some cur.readyStatus, lastFullStatus := some cur })
  else ((false, false), st)

/-- The flag pairs emitted over a sequence of successfully polled snapshots. -/
def watchEvents (st : WatchState) : List StatusSnapshot → List (Bool × Bool)
  | [] => []
  | s :: rest =>
    let r := watchStep st s
    r.1 :: watchEvents r.2 rest

/-- The watcher run from its initial state (both last-seen values None). -/
def watchEventsFromStart (snaps : List StatusSnapshot) : List (Bool × Bool) :=
  watchEvents { lastReadyStatus := none, lastFullStatus := none } snaps

/-- Modelled from the claim wording: a change notification exactly when the
snapshot differs structurally from the previous snapshot (every snapshot
differs from the absent first previous), and a became-ready event exactly on
a transition into Ready True from a previous Ready that was not True. -/
def specChangeEvents : Option StatusSnapshot → List StatusSnapshot → List (Bool × Bool)
  | _, [] => []
  | prev, s :: rest =>
    (if some s ≠ prev then true else false,
     if s.readyStatus = trueStr ∧ prev.map StatusSnapshot.readyStatus ≠ some trueStr
     then true else false)
    :: specChangeEvents (some s) rest

/-- The three poll outcomes the worker loop distinguishes. -/
inductive PollResult where
  | ok (s : StatusSnapshot)
  | apiError (status : Nat)
  | otherError
deriving DecidableEq

/-- The observable actions of the worker loop. -/
inductive WatchEvent where
  | statusChanged
  | becameReady
  | deleted
  | backoff
deriving DecidableEq

/-- The events of one successful iteration, from the emitted flag pair. -/
def stepEventList (ev : Bool × Bool) : List WatchEvent :=
  (if ev.1 then [WatchEvent.statusChanged] else [])
    ++ (if ev.2 then [WatchEvent.becameReady] else [])

/-- Embedding of the _watch_service_worker loop over a sequence of poll
outcomes: a 404 ApiException emits the deletion event, sets the stop flag and
breaks out of the loop (remaining polls never happen); any other ApiException
and any other exception wait the 10 second backoff and continue. -/
def watchLoop (st : WatchState) : List PollResult → List WatchEvent
  | [] => []
  | PollResult.ok s :: rest =>
    let r := watchStep st s
    stepEventList r.1 ++ watchLoop r.2 rest
  | PollResult.apiError code :: rest =>
    if code = 404 then [WatchEvent.deleted]
    else WatchEvent.backoff :: watchLoop st rest
  | PollResult.otherError :: rest => WatchEvent.backoff :: watchLoop st rest

/-! ## Name sanitizer (widget.py, _sanitize_kubernetes_name)

The pipeline is embedded stage by stage in source order: last path segment,
lowercase, replace invalid characters, collapse hyphen runs, strip leading
and trailing non-alphanumerics, empty fallback, truncation to 63, final
first-character fix.  Character classes are the ASCII ranges of the regexes;
Python str.lower is embedded as ASCII lowercasing (characters outside the
classes are replaced by hyphens right after, so the conclusion is not
affected by non-ASCII case mappings). -/

/-- Characters legal inside a sanitized name apart from the hyphen: the
class a-z0-9 of the stripping regexes. -/
def pyIsLowerAlnum (c : Char) : Bool :=
  (97 ≤ c.toNat && c.toNat ≤ 122) || (48 ≤ c.toNat && c.toNat ≤ 57)

/-- The character class a-z0-9 plus hyphen kept by the replacement regex. -/
def sanValidChar (c : Char) : Bool := pyIsLowerAlnum c || c == '-'

/-- ASCII model of Python str.isalnum as used on the final first-character
check (at that point the string only holds characters from sanValidChar). -/
def pyIsAlnumAscii (c : Char) : Bool :=
  (97 ≤ c.toNat && c.toNat ≤ 122) || (65 ≤ c.toNat && c.toNat ≤ 90)
    || (48 ≤ c.toNat && c.toNat ≤ 57)

/-- ASCII lowercasing of one character. -/
def asciiToLower (c : Char) : Char :=
  if 65 ≤ c.toNat && c.toNat ≤ 90 then Char.ofNat (c.toNat + 32) else c

/-- Embedding of name.split('/')[-1] when a slash occurs, else the name:
in both cases the maximal slash-free suffix. -/
def lastPathSegment (s : Str) : Str :=
  if '/' ∈ s then (s.reverse.takeWhile (fun c => c != '/')).reverse else s

/-- Embedding of the substitution replacing every character outside
a-z0-9-hyphen by a hyphen. -/
def replaceInvalidChars (s : Str) : Str :=
  s.map (fun c => if sanValidChar c then c else '-')

/-- Embedding of the substitution collapsing every hyphen run to one
hyphen. -/
def collapseHyphens : Str → Str
  | [] => []
  | [c] => [c]
  | a :: b :: rest =>
    if a == '-' && b == '-' then collapseHyphens (b :: rest)
    else a :: collapseHyphens (b :: rest)

/-- Embedding of the substitution deleting the leading run of characters
outside a-z0-9. -/
def stripLeadingNonAlnum (s : Str) : Str :=
  s.dropWhile (fun c => !(pyIsLowerAlnum c))

/-- Embedding of the substitution deleting the trailing run of characters
outside a-z0-9. -/
def stripTrailingNonAlnum (s : Str) : Str :=
  (s.reverse.dropWhile (fun c => !(pyIsLowerAlnum c))).reverse

/-- The constant fallback name used for an empty input and for a name that
empties out during sanitization. -/
def fallbackName : Str := ("inference-service").toList

/-- Embedding of the truncation keeping 60 characters plus the marker. -/
def truncate63 (s : Str) : Str :=
  if 63 < s.length then s.take 60 ++ ("svc").toList else s

/-- Embedding of the final first-character check: when the first character is
not alphanumeric the code writes the marker plus the string WITHOUT its first
character. -/
def finalAlnumFix : Str → Str
  | [] => []
  | c :: rest => if pyIsAlnumAscii c then c :: rest else ("svc-").toList ++ rest

/-- The sanitized value after the lowercase, replacement, collapse and strip
stages, before the empty fallback. -/
def sanStage4 (name : Str) : Str :=
  stripTrailingNonAlnum (stripLeadingNonAlnum
    (collapseHyphens (replaceInvalidChars ((lastPathSegment name).map asciiToLower))))

/-- The pipeline of _sanitize_kubernetes_name up to, but not including, the
final first-character check.  The early return for an empty input is
mirrored by the first branch. -/
def sanitizePreFinal (name : Str) : Str :=
  if name = [] then fallbackName
  else truncate63 (if sanStage4 name = [] then fallbackName else sanStage4 name)

/-- Embedding of _sanitize_kubernetes_name.  For an empty input the Python
code returns the fallback before the final check; applying the final check to
the fallback is the identity, so the composition agrees with the early
return. -/
def sanitizeKubernetesName (name : Str) : Str := finalAlnumFix (sanitizePreFinal name)

/-- No two adjacent hyphens. -/
def HyphenOk : Char → Char → Prop := fun a b => ¬(a = '-' ∧ b = '-')

instance : DecidableRel HyphenOk := fun a b =>
  inferInstanceAs (Decidable (¬(a = '-' ∧ b = '-')))

/-- The invariant every sanitized name satisfies: non-empty, at most 63
characters, only a-z0-9-hyphen, no hyphen runs, first and last character in
a-z0-9. -/
def goodName (s : Str) : Prop :=
  s ≠ [] ∧ s.length ≤ 63 ∧ (∀ c ∈ s, sanValidChar c = true) ∧
  List.Chain' HyphenOk s ∧
  s.head?.all pyIsLowerAlnum = true ∧ s.getLast?.all pyIsLowerAlnum = true

/-- The claimed regex shape of a sanitized name: first character in a-z0-9
followed by at most 62 characters in a-z0-9-hyphen. -/
def matchesK8sNameRegex : Str → Bool
  | [] => false
  | c :: rest => pyIsLowerAlnum c && decide (rest.length ≤ 62) && rest.all sanValidChar

/-- Executable check for the absence of adjacent hyphens, used to settle
List.Chain' HyphenOk on concrete strings. -/
def hyphenOkB : Str → Bool
  | [] => true
  | [_] => true
  | a :: b :: rest => !(a == '-' && b == '-') && hyphenOkB (b :: rest)

/-! ## Theorems -/

/-! ## Supporting lemmas -/

theorem pyReplaceOnce_of_isPrefixOf (old new s : Str) (h : old.isPrefixOf s = true) :
    pyReplaceOnce old new s = new ++ s.drop old.length := by
  cases s with
  | nil =>
    cases old with
    | nil => simp [pyReplaceOnce]
    | cons c t => simp [List.isPrefixOf] at h
  | cons c rest => simp [pyReplaceOnce, h]

/-- C6: rewrite-table path mapping.  The first table entry, in table order,
whose training path is a string-prefix of the candidate has that prefix
replaced exactly once by its deployment path, and when no entry matches the
candidate is returned unchanged. -/
theorem mapCheckpointPath_spec :
    (∀ (t1 t2 : List (Str × Str)) (pfx dep p : Str),
        (∀ e ∈ t1, e.1.isPrefixOf p = false) → pfx.isPrefixOf p = true →
        mapCheckpointPath (t1 ++ (pfx, dep) :: t2) p = dep ++ p.drop pfx.length) ∧
    (∀ (table : List (Str × Str)) (p : Str),
        (∀ e ∈ table, e.1.isPrefixOf p = false) → mapCheckpointPath table p = p) := by
  constructor
  · intro t1 t2 pfx dep p hnone hpfx
    induction t1 with
    | nil =>
      simp only [List.nil_append, mapCheckpointPath, hpfx, if_pos]
      exact pyReplaceOnce_of_isPrefixOf pfx dep p hpfx
    | cons e rest ih =>
      have he : e.1.isPrefixOf p = false := hnone e (by simp)
      have hrest : ∀ x ∈ rest, x.1.isPrefixOf p = false := by
        intro x hx; exact hnone x (by simp [hx])
      cases e with
      | mk a b => simp only [List.cons_append, mapCheckpointPath]
                  rw [he]; simp only [Bool.false_eq_true, if_false]
                  exact ih hrest
  · intro table p hnone
    induction table with
    | nil => simp [mapCheckpointPath]
    | cons e rest ih =>
      have he : e.1.isPrefixOf p = false := hnone e (by simp)
      have hrest : ∀ x ∈ rest, x.1.isPrefixOf p = false := by
        intro x hx; exact hnone x (by simp [hx])
      cases e with
      | mk a b => simp only [mapCheckpointPath]
                  rw [he]; simp only [Bool.false_eq_true, if_false]
                  exact ih hrest

/-- C6 witness: the spec examples, table from "/train" to "pvc://shared"
maps "/train/ckpt-5" to "pvc://shared/ckpt-5" and leaves "/other/ckpt-5"
unchanged. -/
theorem mapCheckpointPath_spec_witness :
    mapCheckpointPath [(("/train").toList, ("pvc://shared").toList)]
        ("/train/ckpt-5").toList = ("pvc://shared/ckpt-5").toList ∧
    mapCheckpointPath [(("/train").toList, ("pvc://shared").toList)]
        ("/other/ckpt-5").toList = ("/other/ckpt-5").toList := by
  constructor
  · exact (mapCheckpointPath_spec.1 [] [] ("/train").toList ("pvc://shared").toList
      ("/train/ckpt-5").toList (by simp) (by decide)).trans (by decide)
  · exact mapCheckpointPath_spec.2 [(("/train").toList, ("pvc://shared").toList)]
      ("/other/ckpt-5").toList (by decide)

theorem strLe_cons (x y : Char) (xs ys : Str) :
    strLe (x :: xs) (y :: ys) = true ↔ x < y ∨ (x = y ∧ strLe xs ys = true) := by
  simp only [strLe]
  split_ifs with h1 h2
  · simp [h1]
  · simp [h1, h2]
  · simp [h1, h2]

theorem strLe_trans_aux :
    ∀ (a b c : Str), strLe a b = true → strLe b c = true → strLe a c = true := by
  intro a
  induction a with
  | nil => intro b c _ _; rfl
  | cons x xs ih =>
    intro b c h1 h2
    cases b with
    | nil => simp [strLe] at h1
    | cons y ys =>
      cases c with
      | nil => simp [strLe] at h2
      | cons z zs =>
        rw [strLe_cons] at h1 h2 ⊢
        rcases h1 with h1 | ⟨h1e, h1r⟩
        · rcases h2 with h2 | ⟨h2e, h2r⟩
          · exact Or.inl (lt_trans h1 h2)
          · exact Or.inl (h2e ▸ h1)
        · rcases h2 with h2 | ⟨h2e, h2r⟩
          · exact Or.inl (h1e ▸ h2)
          · exact Or.inr ⟨h1e.trans h2e, ih ys zs h1r h2r⟩

theorem strLe_total_aux : ∀ (a b : Str), strLe a b = true ∨ strLe b a = true := by
  intro a
  induction a with
  | nil => intro b; exact Or.inl rfl
  | cons x xs ih =>
    intro b
    cases b with
    | nil => exact Or.inr rfl
    | cons y ys =>
      rcases lt_trichotomy x y with h | h | h
      · exact Or.inl ((strLe_cons x y xs ys).2 (Or.inl h))
      · rcases ih ys with hr | hr
        · exact Or.inl ((strLe_cons x y xs ys).2 (Or.inr ⟨h, hr⟩))
        · exact Or.inr ((strLe_cons y x ys xs).2 (Or.inr ⟨h.symm, hr⟩))
      · exact Or.inr ((strLe_cons y x ys xs).2 (Or.inl h))

/-- C1 counterexample: two distinct recorded originals, "/a/x" and "/b/x",
both map to the deployment path "/b/x" under the table sending "/a" to "/b",
yet the mapped listing contains "/b/x" twice, not once — find_checkpoints
does not deduplicate. -/
theorem findCheckpoints_dedup_counterexample :
    ("/a/x").toList ≠ ("/b/x").toList ∧
    mapCheckpointPath [(("/a").toList, ("/b").toList)] ("/a/x").toList = ("/b/x").toList ∧
    mapCheckpointPath [(("/a").toList, ("/b").toList)] ("/b/x").toList = ("/b/x").toList ∧
    (recordCheckpoint [] ("/a/x").toList).1 = true ∧
    (recordCheckpoint (recordCheckpoint [] ("/a/x").toList).2 ("/b/x").toList).1 = true ∧
    List.count ("/b/x").toList
      (findCheckpoints [(("/a").toList, ("/b").toList)]
        (recordCheckpoint (recordCheckpoint [] ("/a/x").toList).2 ("/b/x").toList).2) = 2 := by
  decide

/-- C1 amended: find_checkpoints applies the path mapping to every recorded
original path and returns the lexicographically sorted list of the mapped
paths with one entry per recorded original; duplicates are not collapsed, so
two distinct originals mapping to the same deployment path yield two entries
of that path. -/
theorem findCheckpoints_sorted_perm (pathMapping : List (Str × Str)) (reg : List Str) :
    List.Sorted strLeRel (findCheckpoints pathMapping reg) ∧
    (findCheckpoints pathMapping reg).Perm (reg.map (mapCheckpointPath pathMapping)) := by
  by_cases h : reg = []
  · subst h; simp [findCheckpoints]
  · rw [findCheckpoints, if_neg h]
    exact ⟨@List.sorted_insertionSort Str strLeRel _
        ⟨fun a b => strLe_total_aux a b⟩ ⟨fun a b c => strLe_trans_aux a b c⟩ _,
      List.perm_insertionSort _ _⟩

/-- C5: checkpoint classification.  For a file-extension pattern index the
function returns the containing directory exactly when the path is absolute
and that directory is neither empty nor the root; for any other index it
returns the path unchanged exactly when the path is absolute and does not end
in a 2-4 letter dot-extension suffix. -/
theorem extractCheckpointDirectory_spec (p : Str) (i : Nat) :
    (i ∈ filePatternIndices →
      extractCheckpointDirectory p i =
        if (['/'] : Str).isPrefixOf p ∧ pyDirname p ≠ [] ∧ pyDirname p ≠ ['/']
        then some (pyDirname p) else none) ∧
    (i ∉ filePatternIndices →
      extractCheckpointDirectory p i =
        if (['/'] : Str).isPrefixOf p ∧ endsWithShortExt p = false
        then some p else none) := by
  constructor
  · intro hi
    rw [extractCheckpointDirectory, if_pos hi]
    by_cases habs : (['/'] : Str).isPrefixOf p = true
    · rw [if_pos habs]
      by_cases hdir : pyDirname p ≠ [] ∧ pyDirname p ≠ ['/']
      · rw [if_pos hdir, if_pos ⟨habs, hdir.1, hdir.2⟩]
      · rw [if_neg hdir, if_neg]
        intro hc
        exact hdir ⟨hc.2.1, hc.2.2⟩
    · simp only [Bool.not_eq_true] at habs
      rw [habs]
      simp [habs]
  · intro hi
    rw [extractCheckpointDirectory, if_neg hi]
    by_cases habs : (['/'] : Str).isPrefixOf p = true
    · have hne : p ≠ [] := by
        intro he; subst he; simp [List.isPrefixOf] at habs
      rw [if_pos ⟨hne, habs⟩]
      by_cases hext : endsWithShortExt p = true
      · rw [if_pos hext, if_neg]
        intro hc
        rw [hc.2] at hext
        exact Bool.false_ne_true hext
      · simp only [Bool.not_eq_true] at hext
        rw [hext]
        simp [habs, hext]
    · simp only [Bool.not_eq_true] at habs
      have h1 : ¬(p ≠ [] ∧ (['/'] : Str).isPrefixOf p = true) := by
        intro hc; rw [habs] at hc; exact Bool.false_ne_true hc.2
      have h2 : ¬((['/'] : Str).isPrefixOf p = true ∧ endsWithShortExt p = false) := by
        intro hc; rw [habs] at hc; exact Bool.false_ne_true hc.1
      rw [if_neg h1, if_neg h2]

/-- C5 witness: with file-pattern index 6 the path "/a/b/model.ckpt" yields
its directory "/a/b" and the bare filename "model.ckpt" yields nothing; with
directory-pattern index 0 the absolute directory "/a/b/checkpoint-100" is
returned unchanged and "/a/b/foo.ckpt" is rejected by the extension
heuristic. -/
theorem extractCheckpointDirectory_spec_witness :
    extractCheckpointDirectory ("/a/b/model.ckpt").toList 6 = some (("/a/b").toList) ∧
    extractCheckpointDirectory ("model.ckpt").toList 6 = none ∧
    extractCheckpointDirectory ("/a/b/checkpoint-100").toList 0
      = some (("/a/b/checkpoint-100").toList) ∧
    extractCheckpointDirectory ("/a/b/foo.ckpt").toList 0 = none := by
  refine ⟨?_, ?_, ?_, ?_⟩
  · exact ((extractCheckpointDirectory_spec ("/a/b/model.ckpt").toList 6).1
      (by decide)).trans (by decide)
  · exact ((extractCheckpointDirectory_spec ("model.ckpt").toList 6).1
      (by decide)).trans (by decide)
  · exact ((extractCheckpointDirectory_spec ("/a/b/checkpoint-100").toList 0).2
      (by decide)).trans (by decide)
  · exact ((extractCheckpointDirectory_spec ("/a/b/foo.ckpt").toList 0).2
      (by decide)).trans (by decide)

/-- C2: job-aware relative-path resolution.  When the resolved mount path is a
prefix of the candidate and the remainder after stripping the mount path and
at most one leading slash is non-empty, that remainder is returned; the
function returns none exactly when the mount path is unresolved (none, or the
falsy empty string), the candidate does not start with the mount path, or the
remainder is empty. -/
theorem extractRelativePathForPvc_spec :
    (∀ (m c : Str), m ≠ [] → m.isPrefixOf c = true →
        stripOneLeadingSlash (c.drop m.length) ≠ [] →
        extractRelativePathForPvc (some m) c =
          some (stripOneLeadingSlash (c.drop m.length))) ∧
    (∀ c : Str, extractRelativePathForPvc none c = none) ∧
    (∀ (m c : Str), m.isPrefixOf c = false →
        extractRelativePathForPvc (some m) c = none) ∧
    (∀ (m c : Str), stripOneLeadingSlash (c.drop m.length) = [] →
        extractRelativePathForPvc (some m) c = none) := by
  refine ⟨?_, ?_, ?_, ?_⟩
  · intro m c hm hpfx hrel
    simp [extractRelativePathForPvc, hm, hpfx, hrel]
  · intro c; rfl
  · intro m c hpfx
    by_cases hm : m = []
    · subst hm; simp [List.isPrefixOf] at hpfx
    · simp [extractRelativePathForPvc, hm, hpfx]
  · intro m c hrel
    by_cases hm : m = []
    · simp [extractRelativePathForPvc, hm]
    · by_cases hpfx : m.isPrefixOf c = true
      · simp [extractRelativePathForPvc, hm, hpfx, hrel]
      · simp only [Bool.not_eq_true] at hpfx
        simp [extractRelativePathForPvc, hm, hpfx]

/-- C2 witness: the spec examples with mount "/opt/data".  Candidate
"/opt/data/ckpt-100" resolves to "ckpt-100"; an unresolved mount fails;
candidate "/other/ckpt-100" fails; candidate equal to the mount fails. -/
theorem extractRelativePathForPvc_spec_witness :
    extractRelativePathForPvc (some ("/opt/data").toList) ("/opt/data/ckpt-100").toList
      = some (("ckpt-100").toList) ∧
    extractRelativePathForPvc none ("/opt/data/ckpt-100").toList = none ∧
    extractRelativePathForPvc (some ("/opt/data").toList) ("/other/ckpt-100").toList = none ∧
    extractRelativePathForPvc (some ("/opt/data").toList) ("/opt/data").toList = none := by
  refine ⟨?_, ?_, ?_, ?_⟩
  · exact (extractRelativePathForPvc_spec.1 ("/opt/data").toList
      ("/opt/data/ckpt-100").toList (by decide) (by decide) (by decide)).trans (by decide)
  · exact extractRelativePathForPvc_spec.2.1 ("/opt/data/ckpt-100").toList
  · exact extractRelativePathForPvc_spec.2.2.1 ("/opt/data").toList
      ("/other/ckpt-100").toList (by decide)
  · exact extractRelativePathForPvc_spec.2.2.2 ("/opt/data").toList
      ("/opt/data").toList (by decide)

/-- C3 counterexample: on exampleJobC3 the PVC name resolves to "pvc-a", the
claim of the first PVC-backed volume "vol-a", even though no container mounts
"vol-a"; the mount path resolves to "/mnt/b", which is the mount of the
different volume "vol-b" whose claim is "pvc-b".  The returned pair does not
come from the same volume and PVC-name resolution does not fail although no
container mounts that volume. -/
theorem volumeMountResolution_counterexample :
    getPytorchjobPvcName exampleJobC3 = some (("pvc-a").toList) ∧
    getPvcMountPathFromJob exampleJobC3 = some (("/mnt/b").toList) ∧
    (∀ ps ∈ jobTemplates exampleJobC3, ∀ c ∈ ps.containers, ∀ vm ∈ c.volumeMounts,
      vm.name ≠ some (("vol-a").toList)) ∧
    (∀ ps ∈ jobTemplates exampleJobC3, ∀ v ∈ ps.volumes,
      v.name = some (("vol-b").toList) →
      v.persistentVolumeClaim = some { claimName := some (("pvc-b").toList) }) ∧
    ("pvc-a").toList ≠ ("pvc-b").toList := by
  decide

theorem firstSome_map_eq_head {α β : Type} (f : α → Option β) (g : α → List β)
    (hfg : ∀ x, f x = (g x).head?) (l : List α) :
    firstSome (l.map f) = (l.flatMap g).head? := by
  induction l with
  | nil => rfl
  | cons x rest ih =>
    simp only [List.map_cons, List.flatMap_cons, firstSome, List.head?_append]
    rw [hfg x]
    cases hg : (g x).head? with
    | none => simpa [hg, Option.or] using ih
    | some b => simp [hg, Option.or]

theorem firstSome_map_filterMap {α β : Type} (f : α → Option β) (l : List α) :
    firstSome (l.map f) = (l.filterMap f).head? := by
  induction l with
  | nil => rfl
  | cons x rest ih =>
    simp only [List.map_cons, firstSome, List.filterMap_cons]
    cases hx : f x with
    | none => simpa [hx] using ih
    | some b => simp [hx]

theorem firstPvcClaimInVolumes_eq_head (vols : List Volume) :
    firstPvcClaimInVolumes vols =
      (vols.filterMap (fun v =>
        match v.persistentVolumeClaim with
        | some pvc => pvc.claimName
        | none => none)).head? := by
  induction vols with
  | nil => rfl
  | cons v rest ih =>
    simp only [firstPvcClaimInVolumes, List.filterMap_cons]
    cases hv : v.persistentVolumeClaim with
    | none => simpa [hv] using ih
    | some pvc =>
      cases hc : pvc.claimName with
      | none => simpa [hv, hc] using ih
      | some c => simp [hv, hc]

/-- C3 amended: the PVC claim name returned is that of the first volume with
a truthy claim name across the replica-spec templates, and the mount path
returned is the first container volume mount referencing any PVC-backed
volume of its own template; the two scans are independent, so the pair need
not come from the same volume.  When no PVC-backed volume exists at all, both
resolutions fail. -/
theorem volumeMountResolution_amended (job : PyTorchJob) :
    getPytorchjobPvcName job = (allPvcClaims job).head? ∧
    getPvcMountPathFromJob job = (allPvcMounts job).head? ∧
    (allPvcClaims job = [] →
      getPytorchjobPvcName job = none ∧ getPvcMountPathFromJob job = none) := by
  have hname : getPytorchjobPvcName job = (allPvcClaims job).head? := by
    rw [getPytorchjobPvcName, allPvcClaims]
    exact firstSome_map_eq_head _ _
      (fun ps => firstPvcClaimInVolumes_eq_head ps.volumes) (jobTemplates job)
  have hmount : getPvcMountPathFromJob job = (allPvcMounts job).head? := by
    rw [getPvcMountPathFromJob, allPvcMounts]
    refine firstSome_map_eq_head _ _ (fun ps => ?_) (jobTemplates job)
    rw [firstPvcMountInTemplate]
    exact firstSome_map_eq_head _ _
      (fun c => firstSome_map_filterMap _ c.volumeMounts) ps.containers
  refine ⟨hname, hmount, fun hempty => ⟨?_, ?_⟩⟩
  · rw [hname, hempty]; rfl
  · have hnames : ∀ ps ∈ jobTemplates job, pvcVolumeNames ps.volumes = [] := by
      intro ps hps
      rw [allPvcClaims] at hempty
      have h1 : ∀ ps1 ∈ jobTemplates job,
          ps1.volumes.filterMap (fun v =>
            match v.persistentVolumeClaim with
            | some pvc => pvc.claimName
            | none => none) = [] := by
        intro ps1 hps1
        by_contra hne
        rcases List.exists_mem_of_ne_nil _ hne with ⟨c, hc⟩
        have : c ∈ allPvcClaims job := by
          rw [allPvcClaims]
          exact List.mem_flatMap.2 ⟨ps1, hps1, hc⟩
        rw [allPvcClaims] at this
        rw [hempty] at this
        exact absurd this (List.not_mem_nil c)
      have h2 := h1 ps hps
      rw [List.filterMap_eq_nil_iff] at h2
      rw [pvcVolumeNames, List.filterMap_eq_nil_iff]
      intro v hv
      have h3 := h2 v hv
      cases hn : v.name with
      | none => simp [hn]
      | some n =>
        cases hp : v.persistentVolumeClaim with
        | none => simp [hn, hp]
        | some pvc =>
          rw [hp] at h3
          have h4 : pvc.claimName = none := h3
          simp [hn, hp, h4]
    rw [hmount]
    have hm : allPvcMounts job = [] := by
      rw [allPvcMounts]
      rw [List.flatMap_eq_nil_iff]
      intro ps hps
      rw [List.flatMap_eq_nil_iff]
      intro c hc
      rw [List.filterMap_eq_nil_iff]
      intro vm hvm
      rw [pvcMountOfVolumeMount]
      cases hn : vm.name with
      | none => rfl
      | some n =>
        cases hmp : vm.mountPath with
        | none => rfl
        | some mp =>
          rw [hnames ps hps]
          simp
    rw [hm]; rfl

/-- C10 counterexample: the table entry rewriting "/train" to "/opt" rewrites
the prefix of the recorded original "/train/data/x" to "/opt", a string that
does not begin with the resolved mount path "/opt/data"; yet the mapped path
"/opt/data/x" does fall under the mount, relative-path extraction succeeds,
and the create request is submitted with URI "pvc://models/x". -/
theorem deployMappedPath_counterexample :
    ("/opt/data").toList.isPrefixOf ("/opt").toList = false ∧
    mapCheckpointPath [(("/train").toList, ("/opt").toList)] ("/train/data/x").toList
      = ("/opt/data/x").toList ∧
    ("/opt/data/x").toList ∈
      findCheckpoints [(("/train").toList, ("/opt").toList)] [("/train/data/x").toList] ∧
    createInferenceService (some (("models").toList)) (some (("/opt/data").toList))
      ("/opt/data/x").toList = some (("pvc://models/x").toList) := by
  decide

/-- C10 amended: the checkpoint path used at deployment time is the mapped
path, an element of the find_checkpoints listing; and whenever the mapped
path of a recorded original does not begin with the resolved mount path,
relative-path extraction fails and no create request is submitted. -/
theorem deployMappedPath_amended (pathMapping : List (Str × Str)) (reg : List Str)
    (p : Str) (mount : Str) (pvc : Option Str) (hp : p ∈ reg) :
    mapCheckpointPath pathMapping p ∈ findCheckpoints pathMapping reg ∧
    (mount.isPrefixOf (mapCheckpointPath pathMapping p) = false →
      createInferenceService pvc (some mount) (mapCheckpointPath pathMapping p) = none) := by
  constructor
  · have hne : reg ≠ [] := by
      intro he; subst he; exact absurd hp (List.not_mem_nil p)
    rw [findCheckpoints, if_neg hne]
    rw [(List.perm_insertionSort strLeRel _).mem_iff]
    exact List.mem_map_of_mem _ hp
  · intro hpfx
    have hext : extractRelativePathForPvc (some mount) (mapCheckpointPath pathMapping p)
        = none := by
      by_cases hm : mount = []
      · simp [extractRelativePathForPvc, hm]
      · simp [extractRelativePathForPvc, hm, hpfx]
    cases pvc with
    | none => rfl
    | some v => simp [createInferenceService, hext]

/-- C10 witness: the amended statement applied to the concrete registry entry
"/train/ckpt-5" with table sending "/train" to "pvc-elsewhere" and mount
"/opt/data": the mapped path is listed, extraction fails and nothing is
submitted. -/
theorem deployMappedPath_amended_witness :
    mapCheckpointPath [(("/train").toList, ("pvc-elsewhere").toList)] ("/train/ckpt-5").toList
      ∈ findCheckpoints [(("/train").toList, ("pvc-elsewhere").toList)]
          [("/train/ckpt-5").toList] ∧
    createInferenceService (some (("models").toList)) (some (("/opt/data").toList))
      (mapCheckpointPath [(("/train").toList, ("pvc-elsewhere").toList)]
        ("/train/ckpt-5").toList) = none := by
  have h := deployMappedPath_amended [(("/train").toList, ("pvc-elsewhere").toList)]
    [("/train/ckpt-5").toList] ("/train/ckpt-5").toList ("/opt/data").toList
    (some (("models").toList)) (by decide)
  exact ⟨h.1, h.2 (by decide)⟩

theorem watchEvents_eq_spec (snaps : List StatusSnapshot) :
    ∀ full : Option StatusSnapshot,
      watchEvents
        { lastReadyStatus := full.map StatusSnapshot.readyStatus, lastFullStatus := full }
        snaps = specChangeEvents full snaps := by
  induction snaps with
  | nil => intro full; rfl
  | cons s rest ih =>
    intro full
    by_cases h : full = some s
    · subst h
      rw [watchEvents, specChangeEvents]
      simp only [watchStep, Option.map_some]
      rw [if_neg (by simp)]
      have h1 : (if (some s : Option StatusSnapshot) ≠ some s then true else false) = false := by
        simp
      have h2 : (if s.readyStatus = trueStr ∧
          Option.map StatusSnapshot.readyStatus (some s) ≠ some trueStr
          then true else false) = false := by
        by_cases hr : s.readyStatus = trueStr
        · simp [hr]
        · simp [hr]
      rw [h1, h2]
      exact congrArg _ (ih (some s))
    · have hcond : full ≠ some s ∨
          (Option.map StatusSnapshot.readyStatus full ≠ some s.readyStatus) := Or.inl h
      rw [watchEvents, specChangeEvents]
      simp only [watchStep]
      rw [if_pos hcond]
      have hne : (some s : Option StatusSnapshot) ≠ full := fun he => h he.symm
      have h1 : (if some s ≠ full then true else false) = true := by
        rw [if_pos hne]
      rw [h1]
      exact congrArg _ (ih (some s))

/-- C7: service-watcher change detection.  Over any sequence of polled
snapshots the emitted flag pairs are exactly those of the claimed behaviour —
a change notification precisely when the snapshot differs structurally from
the last-seen one (so two consecutive identical snapshots notify only on the
first), and a became-ready event precisely on a transition into Ready True
from a non-True previous Ready. -/
theorem watchServiceWorker_change_detection (snaps : List StatusSnapshot) :
    watchEventsFromStart snaps = specChangeEvents none snaps :=
  watchEvents_eq_spec snaps none

/-- C8: service-watcher error discrimination.  A 404 is terminal: the
deletion event is emitted and whatever polls would have followed are ignored.
A non-404 API error, and likewise a generic error, only produces a backoff
and the loop continues with the remaining polls — it is never terminal. -/
theorem watchServiceWorker_error_discrimination :
    (∀ (st : WatchState) (rest : List PollResult),
        watchLoop st (PollResult.apiError 404 :: rest) = [WatchEvent.deleted]) ∧
    (∀ (st : WatchState) (code : Nat) (rest : List PollResult), code ≠ 404 →
        watchLoop st (PollResult.apiError code :: rest)
          = WatchEvent.backoff :: watchLoop st rest) ∧
    (∀ (st : WatchState) (rest : List PollResult),
        watchLoop st (PollResult.otherError :: rest)
          = WatchEvent.backoff :: watchLoop st rest) := by
  refine ⟨fun st rest => ?_, fun st code rest hc => ?_, fun st rest => ?_⟩
  · rw [watchLoop, if_pos rfl]
  · rw [watchLoop, if_neg hc]
  · rw [watchLoop]

/-- C8 witness: concretely, a 404 in the middle of a run ends it with the
deletion event even though more polls were queued, while a 500 only inserts
a backoff before the remaining run. -/
theorem watchServiceWorker_error_discrimination_witness :
    watchLoop { lastReadyStatus := none, lastFullStatus := none }
      [PollResult.apiError 404, PollResult.otherError] = [WatchEvent.deleted] ∧
    watchLoop { lastReadyStatus := none, lastFullStatus := none }
      [PollResult.apiError 500] = [WatchEvent.backoff] ∧
    watchLoop { lastReadyStatus := none, lastFullStatus := none }
      [PollResult.otherError] = [WatchEvent.backoff] := by
  refine ⟨?_, ?_, ?_⟩
  · exact watchServiceWorker_error_discrimination.1
      { lastReadyStatus := none, lastFullStatus := none } [PollResult.otherError]
  · exact (watchServiceWorker_error_discrimination.2.1
      { lastReadyStatus := none, lastFullStatus := none } 500 [] (by decide)).trans rfl
  · exact (watchServiceWorker_error_discrimination.2.2
      { lastReadyStatus := none, lastFullStatus := none } []).trans rfl

theorem bool_and_parts {x y : Bool} (h : (x && y) = true) : x = true ∧ y = true := by
  cases x <;> cases y <;> simp_all

theorem pyIsLowerAlnum_imp_pyIsAlnumAscii (c : Char) (h : pyIsLowerAlnum c = true) :
    pyIsAlnumAscii c = true := by
  simp only [pyIsLowerAlnum, Bool.or_eq_true, Bool.and_eq_true, decide_eq_true_eq] at h
  simp only [pyIsAlnumAscii, Bool.or_eq_true, Bool.and_eq_true, decide_eq_true_eq]
  omega

theorem asciiToLower_valid (c : Char) (h : sanValidChar c = true) : asciiToLower c = c := by
  have hn : ¬(65 ≤ c.toNat ∧ c.toNat ≤ 90) := by
    simp only [sanValidChar, pyIsLowerAlnum, Bool.or_eq_true, Bool.and_eq_true,
      decide_eq_true_eq, beq_iff_eq] at h
    rcases h with (⟨h1, h2⟩ | ⟨h1, h2⟩) | h1
    · omega
    · omega
    · subst h1; decide
  rw [asciiToLower, if_neg (by simpa using hn)]

theorem mem_replaceInvalidChars_valid (s : Str) :
    ∀ c ∈ replaceInvalidChars s, sanValidChar c = true := by
  intro c hc
  rw [replaceInvalidChars] at hc
  rcases List.mem_map.1 hc with ⟨a, _, rfl⟩
  by_cases hv : sanValidChar a = true
  · rw [if_pos hv]; exact hv
  · rw [if_neg hv]; decide

theorem collapseHyphens_cons2 (a b : Char) (rest : Str) :
    collapseHyphens (a :: b :: rest) =
      if a == '-' && b == '-' then collapseHyphens (b :: rest)
      else a :: collapseHyphens (b :: rest) := rfl

theorem mem_collapseHyphens (s : Str) : ∀ c ∈ collapseHyphens s, c ∈ s := by
  induction s with
  | nil => intro c hc; exact absurd hc (List.not_mem_nil c)
  | cons a tail ih =>
    cases tail with
    | nil =>
      intro c hc
      rw [show collapseHyphens [a] = [a] from rfl] at hc
      exact hc
    | cons b rest =>
      intro c hc
      rw [collapseHyphens_cons2] at hc
      by_cases hab : (a == '-' && b == '-') = true
      · rw [if_pos hab] at hc
        exact List.mem_cons_of_mem a (ih c hc)
      · rw [if_neg hab] at hc
        rcases List.mem_cons.1 hc with rfl | hc2
        · exact List.mem_cons_self _ _
        · exact List.mem_cons_of_mem a (ih c hc2)

theorem head?_collapseHyphens (s : Str) : (collapseHyphens s).head? = s.head? := by
  induction s with
  | nil => rfl
  | cons a tail ih =>
    cases tail with
    | nil => rfl
    | cons b rest =>
      rw [collapseHyphens_cons2]
      by_cases hab : (a == '-' && b == '-') = true
      · rw [if_pos hab, ih]
        have ha : a = '-' := beq_iff_eq.1 (bool_and_parts hab).1
        have hb : b = '-' := beq_iff_eq.1 (bool_and_parts hab).2
        rw [ha, hb]
        rfl
      · rw [if_neg hab]
        rfl

theorem chain'_collapseHyphens (s : Str) : List.Chain' HyphenOk (collapseHyphens s) := by
  induction s with
  | nil => exact List.chain'_nil
  | cons a tail ih =>
    cases tail with
    | nil => exact List.chain'_singleton a
    | cons b rest =>
      rw [collapseHyphens_cons2]
      by_cases hab : (a == '-' && b == '-') = true
      · rw [if_pos hab]; exact ih
      · rw [if_neg hab, List.chain'_cons']
        refine ⟨?_, ih⟩
        intro y hy
        rw [head?_collapseHyphens] at hy
        have hyb : b = y := by simpa using hy
        subst hyb
        intro hcon
        exact hab (by
          rw [Bool.and_eq_true]
          exact ⟨beq_iff_eq.2 hcon.1, beq_iff_eq.2 hcon.2⟩)

theorem collapseHyphens_of_chain' (s : Str) (h : List.Chain' HyphenOk s) :
    collapseHyphens s = s := by
  induction s with
  | nil => rfl
  | cons a tail ih =>
    cases tail with
    | nil => rfl
    | cons b rest =>
      rw [collapseHyphens_cons2]
      have hR : HyphenOk a b := (List.chain'_cons.1 h).1
      have hab : ¬(a == '-' && b == '-') = true := by
        intro hcon
        exact hR ⟨beq_iff_eq.1 (bool_and_parts hcon).1, beq_iff_eq.1 (bool_and_parts hcon).2⟩
      rw [if_neg hab, ih (List.chain'_cons.1 h).2]

theorem dropWhile_head_not (p : Char → Bool) (s : Str) :
    ∀ c, (s.dropWhile p).head? = some c → p c = false := by
  induction s with
  | nil => intro c hc; cases hc
  | cons a tail ih =>
    intro c hc
    rw [List.dropWhile_cons] at hc
    by_cases ha : p a = true
    · rw [if_pos ha] at hc; exact ih c hc
    · rw [if_neg ha] at hc
      have hac : a = c := by simpa using hc
      subst hac
      simp only [Bool.not_eq_true] at ha
      exact ha

theorem head?_eq_of_isPrefix {l1 l2 : Str} (h : l1 <+: l2) (hne : l1 ≠ []) :
    l1.head? = l2.head? := by
  rcases h with ⟨u, rfl⟩
  rw [List.head?_append]
  cases l1 with
  | nil => exact absurd rfl hne
  | cons a t => rfl

theorem stripTrailingNonAlnum_isPrefix (s : Str) : stripTrailingNonAlnum s <+: s := by
  rw [stripTrailingNonAlnum]
  have h1 := List.dropWhile_suffix (l := s.reverse) (fun c => !(pyIsLowerAlnum c))
  have h2 := List.reverse_prefix.2 h1
  rwa [List.reverse_reverse] at h2

theorem getLast?_stripTrailingNonAlnum (s : Str) :
    ∀ c, (stripTrailingNonAlnum s).getLast? = some c → pyIsLowerAlnum c = true := by
  intro c hc
  rw [stripTrailingNonAlnum, List.getLast?_reverse] at hc
  have h := dropWhile_head_not (fun c => !(pyIsLowerAlnum c)) s.reverse c hc
  simpa using h

theorem stripTrailingNonAlnum_ne_nil (s : Str) (c : Char) (hc : s.head? = some c)
    (hal : pyIsLowerAlnum c = true) : stripTrailingNonAlnum s ≠ [] := by
  rw [stripTrailingNonAlnum]
  intro he
  rw [List.reverse_eq_nil_iff, List.dropWhile_eq_nil_iff] at he
  have hmem : c ∈ s.reverse := by
    rw [List.mem_reverse]
    cases s with
    | nil => cases hc
    | cons a t =>
      have : a = c := by simpa using hc
      subst this
      exact List.mem_cons_self _ _
  have := he c hmem
  rw [hal] at this
  cases this

theorem stripTrailingNonAlnum_of_getLast (s : Str)
    (h : ∀ c, s.getLast? = some c → pyIsLowerAlnum c = true) :
    stripTrailingNonAlnum s = s := by
  rw [stripTrailingNonAlnum]
  cases hrev : s.reverse with
  | nil =>
    have : s = [] := by
      have := congrArg List.reverse hrev
      rwa [List.reverse_reverse] at this
    rw [this]; rfl
  | cons a t =>
    have hlast : s.getLast? = some a := by
      rw [← List.head?_reverse, hrev]; rfl
    have ha := h a (hlast)
    rw [List.dropWhile_cons, if_neg (by simp [ha])]
    rw [← hrev, List.reverse_reverse]

theorem chain'_of_hyphenOkB (s : Str) (h : hyphenOkB s = true) :
    List.Chain' HyphenOk s := by
  induction s with
  | nil => exact List.chain'_nil
  | cons a tail ih =>
    cases tail with
    | nil => exact List.chain'_singleton a
    | cons b rest =>
      rw [show hyphenOkB (a :: b :: rest)
          = (!(a == '-' && b == '-') && hyphenOkB (b :: rest)) from rfl] at h
      obtain ⟨hab, hrest⟩ := bool_and_parts h
      rw [List.chain'_cons]
      refine ⟨?_, ih hrest⟩
      intro hcon
      rw [beq_iff_eq.2 hcon.1, beq_iff_eq.2 hcon.2] at hab
      exact absurd hab (by decide)

theorem chain'_hyphenOk_of_isPrefix {l1 l2 : Str} (h : List.Chain' HyphenOk l2)
    (hp : l1 <+: l2) : List.Chain' HyphenOk l1 := by
  rcases hp with ⟨t, rfl⟩
  exact (List.chain'_append.1 h).1

theorem stripLeadingNonAlnum_of_head (s : Str) (h : s.head?.all pyIsLowerAlnum = true) :
    stripLeadingNonAlnum s = s := by
  cases s with
  | nil => rfl
  | cons c rest =>
    have hc : pyIsLowerAlnum c = true := by simpa using h
    rw [stripLeadingNonAlnum, List.dropWhile_cons, if_neg (by simp [hc])]

theorem goodName_fallbackName : goodName fallbackName := by
  refine ⟨by decide, by decide, by decide, chain'_of_hyphenOkB _ (by decide), by decide, by decide⟩

theorem goodName_truncate63 (s : Str) (hne : s ≠ [])
    (hvalid : ∀ c ∈ s, sanValidChar c = true) (hchain : List.Chain' HyphenOk s)
    (hhead : s.head?.all pyIsLowerAlnum = true)
    (hlast : s.getLast?.all pyIsLowerAlnum = true) :
    goodName (truncate63 s) := by
  rw [truncate63]
  by_cases hlen : 63 < s.length
  · rw [if_pos hlen]
    have htake_len : (s.take 60).length = 60 := by
      rw [List.length_take]; omega
    have htake_ne : s.take 60 ≠ [] := by
      intro he; rw [he] at htake_len; simp at htake_len
    refine ⟨?_, ?_, ?_, ?_, ?_, ?_⟩
    · intro he
      have := List.append_ne_nil_of_right_ne_nil (s.take 60) (by decide : ("svc").toList ≠ [])
      exact this he
    · rw [List.length_append, htake_len]
      decide
    · intro c hc
      rcases List.mem_append.1 hc with h1 | h2
      · exact hvalid c (List.take_subset 60 s h1)
      · rcases (by simpa using h2 : c = 's' ∨ c = 'v' ∨ c = 'c') with rfl | rfl | rfl <;> decide
    · rw [List.chain'_append]
      refine ⟨chain'_hyphenOk_of_isPrefix hchain (List.take_prefix 60 s),
        chain'_of_hyphenOkB _ (by decide), ?_⟩
      intro x hx y hy
      have hy2 : 's' = y := by simpa using hy
      subst hy2
      intro hcon
      exact absurd hcon.2 (by decide)
    · rw [List.head?_append, List.head?_take, if_neg (by decide : ¬(60 = 0))]
      cases hs : s.head? with
      | none => exact absurd (List.head?_eq_none_iff.1 hs) hne
      | some a =>
        rw [hs] at hhead
        simpa using hhead
    · rw [List.getLast?_append]
      rw [show (("svc").toList).getLast? = some 'c' by decide]
      rfl
  · rw [if_neg hlen]
    exact ⟨hne, by omega, hvalid, hchain, hhead, hlast⟩

theorem goodName_sanitizePreFinal (s : Str) : goodName (sanitizePreFinal s) := by
  rw [sanitizePreFinal]
  by_cases hs : s = []
  · rw [if_pos hs]
    exact goodName_fallbackName
  · rw [if_neg hs]
    have hvalid_u : ∀ c ∈ collapseHyphens
        (replaceInvalidChars ((lastPathSegment s).map asciiToLower)), sanValidChar c = true := by
      intro c hc
      exact mem_replaceInvalidChars_valid _ c (mem_collapseHyphens _ c hc)
    have hchain_u : List.Chain' HyphenOk (collapseHyphens
        (replaceInvalidChars ((lastPathSegment s).map asciiToLower))) :=
      chain'_collapseHyphens _
    have hvalid_t : ∀ c ∈ stripLeadingNonAlnum (collapseHyphens
        (replaceInvalidChars ((lastPathSegment s).map asciiToLower))), sanValidChar c = true := by
      intro c hc
      exact hvalid_u c ((List.dropWhile_sublist _).mem hc)
    have hchain_t : List.Chain' HyphenOk (stripLeadingNonAlnum (collapseHyphens
        (replaceInvalidChars ((lastPathSegment s).map asciiToLower)))) :=
      hchain_u.suffix (List.dropWhile_suffix _)
    have hhead_t : ∀ c, (stripLeadingNonAlnum (collapseHyphens
        (replaceInvalidChars ((lastPathSegment s).map asciiToLower)))).head? = some c →
        pyIsLowerAlnum c = true := by
      intro c hc
      have := dropWhile_head_not _ _ c hc
      simpa using this
    by_cases h4 : sanStage4 s = []
    · rw [if_pos h4]
      obtain ⟨g1, g2, g3, g4, g5, g6⟩ := goodName_fallbackName
      exact goodName_truncate63 fallbackName g1 g3 g4 g5 g6
    · rw [if_neg h4]
      have hpfx : sanStage4 s <+: stripLeadingNonAlnum (collapseHyphens
          (replaceInvalidChars ((lastPathSegment s).map asciiToLower))) :=
        stripTrailingNonAlnum_isPrefix _
      have hvalid4 : ∀ c ∈ sanStage4 s, sanValidChar c = true := by
        intro c hc
        exact hvalid_t c (hpfx.sublist.mem hc)
      have hchain4 : List.Chain' HyphenOk (sanStage4 s) :=
        chain'_hyphenOk_of_isPrefix hchain_t hpfx
      have hhead4 : (sanStage4 s).head?.all pyIsLowerAlnum = true := by
        cases hc : (sanStage4 s).head? with
        | none => rfl
        | some c =>
          have hht := (head?_eq_of_isPrefix hpfx h4).symm.trans hc
          have := hhead_t c hht
          simpa using this
      have hlast4 : (sanStage4 s).getLast?.all pyIsLowerAlnum = true := by
        cases hc : (sanStage4 s).getLast? with
        | none => rfl
        | some c =>
          have := getLast?_stripTrailingNonAlnum _ c hc
          simpa using this
      exact goodName_truncate63 (sanStage4 s) h4 hvalid4 hchain4 hhead4 hlast4

theorem finalAlnumFix_of_goodName (s : Str) (h : goodName s) : finalAlnumFix s = s := by
  obtain ⟨hne, _, _, _, hhead, _⟩ := h
  cases s with
  | nil => rfl
  | cons c rest =>
    have hc : pyIsLowerAlnum c = true := by simpa using hhead
    rw [show finalAlnumFix (c :: rest)
        = if pyIsAlnumAscii c then c :: rest else ("svc-").toList ++ rest from rfl,
      if_pos (pyIsLowerAlnum_imp_pyIsAlnumAscii c hc)]

theorem goodName_sanitizeKubernetesName (s : Str) :
    goodName (sanitizeKubernetesName s) := by
  rw [sanitizeKubernetesName, finalAlnumFix_of_goodName _ (goodName_sanitizePreFinal s)]
  exact goodName_sanitizePreFinal s

theorem sanitizeKubernetesName_of_goodName (r : Str) (h : goodName r) :
    sanitizeKubernetesName r = r := by
  obtain ⟨hne, hlen, hvalid, hchain, hhead, hlast⟩ := h
  have hslash : '/' ∉ r := by
    intro hm
    have := hvalid '/' hm
    revert this
    decide
  have h1 : lastPathSegment r = r := by
    rw [lastPathSegment, if_neg hslash]
  have h2 : r.map asciiToLower = r := by
    have hmap : r.map asciiToLower = r.map id :=
      List.map_congr_left (fun a ha => asciiToLower_valid a (hvalid a ha))
    rw [hmap, List.map_id]
  have h3 : replaceInvalidChars r = r := by
    rw [replaceInvalidChars]
    have hmap : r.map (fun c => if sanValidChar c then c else '-') = r.map id :=
      List.map_congr_left (fun a ha => by rw [if_pos (hvalid a ha)]; rfl)
    rw [hmap, List.map_id]
  have h4 : collapseHyphens r = r := collapseHyphens_of_chain' r hchain
  have h5 : stripLeadingNonAlnum r = r := stripLeadingNonAlnum_of_head r hhead
  have h6 : stripTrailingNonAlnum r = r := by
    refine stripTrailingNonAlnum_of_getLast r (fun c hc => ?_)
    rw [hc] at hlast
    simpa using hlast
  have hstage : sanStage4 r = r := by
    rw [sanStage4, h1, h2, h3, h4, h5, h6]
  have hpre : sanitizePreFinal r = r := by
    rw [sanitizePreFinal, if_neg hne, hstage, if_neg hne, truncate63, if_neg (by omega)]
  rw [sanitizeKubernetesName, hpre]
  exact finalAlnumFix_of_goodName r ⟨hne, hlen, hvalid, hchain, hhead, hlast⟩

/-- C4: the name sanitizer is idempotent on every input, and on every
non-empty input its result matches the anchored pattern of a lowercase
alphanumeric first character followed by at most 62 characters drawn from
lowercase alphanumerics and hyphens. -/
theorem sanitizeKubernetesName_spec (s : Str) :
    sanitizeKubernetesName (sanitizeKubernetesName s) = sanitizeKubernetesName s ∧
    (s ≠ [] → matchesK8sNameRegex (sanitizeKubernetesName s) = true) := by
  obtain ⟨hne, hlen, hvalid, hchain, hhead, hlast⟩ := goodName_sanitizeKubernetesName s
  refine ⟨sanitizeKubernetesName_of_goodName _ ⟨hne, hlen, hvalid, hchain, hhead, hlast⟩,
    fun _ => ?_⟩
  cases hs : sanitizeKubernetesName s with
  | nil => exact absurd hs hne
  | cons c rest =>
    rw [show matchesK8sNameRegex (c :: rest)
        = (pyIsLowerAlnum c && decide (rest.length ≤ 62) && rest.all sanValidChar) from rfl]
    rw [hs] at hhead hlen hvalid
    have hc : pyIsLowerAlnum c = true := by simpa using hhead
    have hlen2 : rest.length ≤ 62 := by
      simp only [List.length_cons] at hlen
      omega
    have hall : rest.all sanValidChar = true := by
      rw [List.all_eq_true]
      intro x hx
      exact hvalid x (List.mem_cons_of_mem c hx)
    rw [hc, hall]
    simp [hlen2]

/-- C4 witness: idempotence and the regex shape on the concrete input
"/data/My__Checkpoint.V2!". -/
theorem sanitizeKubernetesName_spec_witness :
    sanitizeKubernetesName (sanitizeKubernetesName ("/data/My__Checkpoint.V2!").toList)
      = sanitizeKubernetesName ("/data/My__Checkpoint.V2!").toList ∧
    matchesK8sNameRegex (sanitizeKubernetesName ("/data/My__Checkpoint.V2!").toList) = true := by
  have h := sanitizeKubernetesName_spec ("/data/My__Checkpoint.V2!").toList
  exact ⟨h.1, h.2 (by decide)⟩

/-- C9: the string reaching the final first-character check always begins
with a lowercase alphanumeric — so the marker-prefixing branch is never
taken and the sanitizer output equals the pre-final pipeline value — while
the branch itself, were it reached on a string with a non-alphanumeric first
character, would produce the marker followed by the string WITHOUT its first
character, replacing it rather than prefixing the whole string. -/
theorem sanitizeFinalBranch_spec :
    (∀ s : Str, (sanitizePreFinal s).head?.all pyIsAlnumAscii = true ∧
        sanitizeKubernetesName s = sanitizePreFinal s) ∧
    (∀ (c : Char) (rest : Str), pyIsAlnumAscii c = false →
        finalAlnumFix (c :: rest) = ("svc-").toList ++ rest) := by
  constructor
  · intro s
    obtain ⟨hne, hlen, hvalid, hchain, hhead, hlast⟩ := goodName_sanitizePreFinal s
    constructor
    · cases hp : (sanitizePreFinal s).head? with
      | none => rfl
      | some c =>
        rw [hp] at hhead
        have hc : pyIsLowerAlnum c = true := by simpa using hhead
        simpa using pyIsLowerAlnum_imp_pyIsAlnumAscii c hc
    · rw [sanitizeKubernetesName]
      exact finalAlnumFix_of_goodName _ ⟨hne, hlen, hvalid, hchain, hhead, hlast⟩
  · intro c rest hc
    rw [show finalAlnumFix (c :: rest)
        = if pyIsAlnumAscii c then c :: rest else ("svc-").toList ++ rest from rfl,
      if_neg (by simp [hc])]

/-- C9 witness: on the concrete input "Check_Point" the sanitizer output
equals the pre-final value (the final branch is not taken), and applying the
final fix to a string starting with a hyphen drops that hyphen. -/
theorem sanitizeFinalBranch_spec_witness :
    sanitizeKubernetesName ("Check_Point").toList = sanitizePreFinal ("Check_Point").toList ∧
    finalAlnumFix ('-' :: ("x").toList) = ("svc-x").toList := by
  constructor
  · exact (sanitizeFinalBranch_spec.1 ("Check_Point").toList).2
  · exact (sanitizeFinalBranch_spec.2 '-' ("x").toList (by decide)).trans (by decide)

end KServeDeployer
